import Mathlib

/-
Verification of the `stupid` single-writer/multi-reader snapshot library.

The development shallowly embeds the `Record` / `Book` / `Object` /
`Immutable` family (the deferred-reclamation versioned cell), the
`sync_signal` / `SyncSignal` tick counter, the `SignalSyncObject` and
`SignalSyncObjectPair` tick-gated caches, the `trigger` / `AtomicTrigger`
latch, and the `beach_ball` / `BeachBall` alternation primitive from
`include/stupid/stupid.hpp`.

The stored value type `T` is modelled as `Nat`.  Heap records are addressed
by allocation index; `heap i = none` means the record does not exist (never
allocated, or already deleted by the registry).  Machine integers are
modelled as `Int` (for `std::atomic<int> ref_count_`) and `Nat` with an
explicit `% 2 ^ 32` where `uint32_t` overflow matters.
-/

namespace StupidVerification

/-- A `stupid::Record<T>`: the pointed-to immutable data (modelled as a
`Nat`) together with its `std::atomic<int> ref_count_`. -/
structure RecordState where
  data : Nat
  refCount : Int
deriving DecidableEq

/-- Combined state of one `stupid::Object<T>` together with its `Book`
(`dispose_flags_`, the `flag` field) and the multiset of live external
`Immutable` handles (`snaps`, a count per record).  `lastWritten` models
`last_written_record_`; `lwRef` models the record held by the
`last_written_ref_` member. -/
structure ObjState where
  nextId : Nat
  heap : Nat → Option RecordState
  flag : Nat → Bool
  lastWritten : Option Nat
  lwRef : Option Nat
  snaps : Nat → Nat

/-- `Record::ref`: `ref_count_++`. -/
def refAdd (s : ObjState) (i : Nat) : ObjState :=
  match s.heap i with
  | none => s
  | some r => { s with heap := Function.update s.heap i (some ⟨r.data, r.refCount + 1⟩) }

/-- `Record::unref`, `unordered_map` variant: `ref_count_.fetch_sub(1)`
returns the old count, and `book_->dispose(this)` (which sets the record's
dispose flag) is called iff the old count was `1`.  The returned `Bool`
reports whether `dispose` was called. -/
def unrefA (s : ObjState) (i : Nat) : ObjState × Bool :=
  match s.heap i with
  | none => (s, false)
  | some r =>
    if r.refCount = 1 then
      ({ s with heap := Function.update s.heap i (some ⟨r.data, r.refCount - 1⟩),
                flag := Function.update s.flag i true }, true)
    else
      ({ s with heap := Function.update s.heap i (some ⟨r.data, r.refCount - 1⟩) }, false)

/-- `Record::unref`, `map` variant: `ref_count_--` discards the result and
the subsequent test reads the already-decremented counter, so
`book_->dispose(this)` is called iff the count after the decrement is `1`. -/
def unrefMap (s : ObjState) (i : Nat) : ObjState × Bool :=
  match s.heap i with
  | none => (s, false)
  | some r =>
    if r.refCount - 1 = 1 then
      ({ s with heap := Function.update s.heap i (some ⟨r.data, r.refCount - 1⟩),
                flag := Function.update s.flag i true }, true)
    else
      ({ s with heap := Function.update s.heap i (some ⟨r.data, r.refCount - 1⟩) }, false)

/-- `Book::collect`: every record whose dispose flag is set and whose
`ref_count_` is observed to be `0` at sweep time is deleted and its map
entry removed. -/
def collectBook (s : ObjState) : ObjState :=
  { s with
    heap := fun i =>
      match s.heap i with
      | none => none
      | some r => if s.flag i = true ∧ r.refCount = 0 then none else some r,
    flag := fun i =>
      match s.heap i with
      | none => s.flag i
      | some r => if s.flag i = true ∧ r.refCount = 0 then false else s.flag i }

/-- `Object::commit(data)`: `book_.make_record(data)` (fresh record, count
`0`, dispose flag `false`), then `out = Immutable{record}` (count `1`),
then `last_written_record_ = record`, then `last_written_ref_ = out`
(the copy assignment first `unref`s the old held record, then `ref`s the
new one, count `2`), then `book_.collect()`; finally `out` is returned to
the caller, who now holds it as a live external snapshot.  Returns the
new record's index. -/
def commitImm (s : ObjState) (v : Nat) : ObjState × Nat :=
  let id := s.nextId
  let s1 : ObjState :=
    { s with nextId := id + 1,
             heap := Function.update s.heap id (some ⟨v, 0⟩),
             flag := Function.update s.flag id false }
  let s2 := refAdd s1 id
  let s3 := { s2 with lastWritten := some id }
  let s4 := match s3.lwRef with
            | none => s3
            | some j => (unrefA s3 j).1
  let s5 := refAdd { s4 with lwRef := some id } id
  let s6 := collectBook s5
  ({ s6 with snaps := Function.update s6.snaps id (s6.snaps id + 1) }, id)

/-- `Object::get` as used by `read().get()` / `write().get()`: builds an
`Immutable{last_written_record_}`, incrementing its count (a no-op when the
object is empty).  The caller keeps the snapshot, so `snaps` is bumped.
Returns the acquired record index (`none` for a null `Immutable`). -/
def acquireImm (s : ObjState) : ObjState × Option Nat :=
  match s.lastWritten with
  | none => (s, none)
  | some i =>
    ({ refAdd s i with snaps := Function.update s.snaps i (s.snaps i + 1) }, some i)

/-- Destruction of one live external `Immutable` holding record `i`:
removes it from the live multiset and runs `Record::unref`
(`unordered_map` variant).  A no-op if no such snapshot is live. -/
def destroySnapImm (s : ObjState) (i : Nat) : ObjState :=
  if 0 < s.snaps i then
    (unrefA { s with snaps := Function.update s.snaps i (s.snaps i - 1) } i).1
  else s

/-- `Object::has_data`: `last_written_record_` is non-null. -/
def objHasData (s : ObjState) : Bool :=
  s.lastWritten.isSome

/-- `Object::copy`: `Immutable ref{ get() }` (a temporary reference),
`if (!ref) return nullptr`, else a duplicate of the pointed-to value is
returned; the temporary is destroyed on exit.  Returns the duplicated
value, `none` standing for the null pointer. -/
def copyImm (s : ObjState) : ObjState × Option Nat :=
  match s.lastWritten with
  | none => (s, none)
  | some i => ((unrefA (refAdd s i) i).1, (s.heap i).map (·.data))

/-- Dereference of an `Immutable` handle (`get_data` / `operator*`) in a
given heap state. -/
def derefImm (s : ObjState) (oi : Option Nat) : Option Nat :=
  oi.bind fun i => (s.heap i).map (·.data)

/-- Value seen through `read().get()` at the current state. -/
def readValue (s : ObjState) : Option Nat :=
  derefImm s s.lastWritten

/-- The operations a writer, the readers and the registry can perform on
one cell. -/
inductive Op where
  | commit (v : Nat)
  | acquire
  | destroySnap (i : Nat)
  | copy
  | collect
deriving DecidableEq

/-- Effect of one operation on the cell state. -/
def stepOp : Op → ObjState → ObjState
  | .commit v, s => (commitImm s v).1
  | .acquire, s => (acquireImm s).1
  | .destroySnap i, s => destroySnapImm s i
  | .copy, s => (copyImm s).1
  | .collect, s => collectBook s

/-- Apply a sequence of operations in order. -/
def applyTrace (t : List Op) (s : ObjState) : ObjState :=
  t.foldl (fun s op => stepOp op s) s

/-- A freshly constructed `Object`: empty book, null
`last_written_record_`, null `last_written_ref_`, no live snapshots. -/
def initObj : ObjState :=
  ⟨0, fun _ => none, fun _ => false, none, none, fun _ => 0⟩

/-- States reachable from a freshly constructed `Object`. -/
def ReachObj (s : ObjState) : Prop :=
  ∃ t : List Op, s = applyTrace t initObj

/-- Whether an operation is a writer commit. -/
def isCommitOp : Op → Bool
  | .commit _ => true
  | _ => false

/-- A `stupid::detail::control_block<T>` of the oldest variant: a `const T
value` and a `std::atomic<uint32_t> ref_count`. -/
structure CBState where
  value : Nat
  refCount : Nat
deriving DecidableEq

/-- `ref::ref_sub` of the oldest variant, acting on a heap of control
blocks: `ref_count.fetch_sub(1)` returns the old count and the block is
`delete`d iff the old count was `1`. -/
def refSub (h : Nat → Option CBState) (j : Nat) : Nat → Option CBState :=
  match h j with
  | none => h
  | some cb =>
    if cb.refCount = 1 then Function.update h j none
    else Function.update h j (some ⟨cb.value, cb.refCount - 1⟩)

/-- `sync_signal::notify` / `SyncSignal::operator()`: `value_++` on a
`uint32_t` counter. -/
def syncSignalBump (v : Nat) : Nat :=
  (v + 1) % 2 ^ 32

/-- Value of a freshly constructed signal (`value_{0}`) after `n` calls of
`notify` / `operator()`. -/
def syncSignalAfter : Nat → Nat
  | 0 => 0
  | n + 1 => syncSignalBump (syncSignalAfter n)

/-- `trigger` / `AtomicTrigger` constructor: `flag_.test_and_set()`, so the
flag starts set (the latch starts unfired). -/
def triggerInit : Bool := true

/-- `trigger::operator()` / `AtomicTrigger::operator()` (fire):
`flag_.clear()`. -/
def triggerFire (_ : Bool) : Bool := false

/-- `trigger::operator bool` / `AtomicTrigger::operator bool` (consume):
`!(flag_.test_and_set())` — returns the negated old flag and leaves the
flag set. -/
def triggerConsume (f : Bool) : Bool × Bool :=
  (!f, true)

/-- Results of `n` consecutive consumes of the latch, starting from flag
state `f`. -/
def consumeN : Nat → Bool → List Bool
  | 0, _ => []
  | n + 1, f => (triggerConsume f).1 :: consumeN n (triggerConsume f).2

/-- Combined state of a `beach_ball` / `BeachBall` (`thrown_to_`, an
`std::atomic<int>` which the code stores `0`, `1` or `NO_PLAYER = -1`
into) together with the `have_ball_` bookkeeping of the two
`beach_ball_player` / `BeachBallPlayer` wrappers. -/
structure BallSt where
  thrownTo : Int
  have0 : Bool
  have1 : Bool
deriving DecidableEq

/-- States of the beach-ball system reachable from construction
(`first_catcher` is `0` or `1`, neither player holds the ball) by
`throw_ball` (asserting `have_ball_`, clearing it, storing `1 - player`)
and successful `catch_ball` (asserting `!have_ball_`, succeeding only when
`thrown_to_ == player`, CAS-ing it to `NO_PLAYER` and setting
`have_ball_`).  A failed `compare_exchange_weak` leaves the state
unchanged and so adds no reachable states. -/
inductive BBReach : BallSt → Prop
  | init0 : BBReach ⟨0, false, false⟩
  | init1 : BBReach ⟨1, false, false⟩
  | throw0 (t : Int) (h1 : Bool) : BBReach ⟨t, true, h1⟩ → BBReach ⟨1, false, h1⟩
  | throw1 (t : Int) (h0 : Bool) : BBReach ⟨t, h0, true⟩ → BBReach ⟨0, h0, false⟩
  | catch0 (h1 : Bool) : BBReach ⟨0, false, h1⟩ → BBReach ⟨-1, true, h1⟩
  | catch1 (h0 : Bool) : BBReach ⟨1, h0, false⟩ → BBReach ⟨-1, h0, true⟩

/-- The role that logically holds the ball: a player who has caught it and
not yet thrown it back, or else the player the ball was thrown to. -/
def logicalHolder (s : BallSt) : Int :=
  if s.have0 then 0 else if s.have1 then 1 else s.thrownTo

/-- Inductive invariant of the beach-ball system: either the ball is in
flight to a named role (`thrown_to_` is `0` or `1`) and neither player
holds it, or `thrown_to_` is `NO_PLAYER = -1` and exactly one player
holds it. -/
def ballINV (s : BallSt) : Prop :=
  (s.thrownTo = -1 ∧ (s.have0 = true ↔ s.have1 = false)) ∨
    ((s.thrownTo = 0 ∨ s.thrownTo = 1) ∧ s.have0 = false ∧ s.have1 = false)

/-- State of a `SignalSyncObject<T>`: the wrapped `Object`, the reader's
`slot_value_`, the record held by the reader's `retrieved_` `Immutable`
(tracked as one of the live snapshots of `obj`), and the `new_data_`
flag. -/
structure SSOState where
  obj : ObjState
  slotValue : Nat
  retrieved : Option Nat
  newData : Bool

/-- `SignalSyncObject::update` given the current signal value: if the
signal advanced past `slot_value_`, exchange `new_data_` to `false` and,
if it was set, reassign `retrieved_ = object_.read().get()` (releasing the
previously retrieved snapshot and acquiring the current record);
finally `slot_value_ = signal_value` unconditionally. -/
def ssoUpdate (sig : Nat) (s : SSOState) : SSOState :=
  let s1 :=
    if s.slotValue < sig then
      if s.newData then
        let o1 := match s.retrieved with
                  | none => s.obj
                  | some j => destroySnapImm s.obj j
        let o2 := acquireImm o1
        { s with obj := o2.1, retrieved := o2.2, newData := false }
      else { s with newData := false }
    else s
  { s1 with slotValue := sig }

/-- `SignalSyncObject::get_data`: runs `update()` and returns
`*retrieved_` (modelled as the retrieved record index). -/
def ssoGetData (sig : Nat) (s : SSOState) : SSOState × Option Nat :=
  let s' := ssoUpdate sig s
  (s', s'.retrieved)

/-- `SignalSyncObject::commit`: commits to the wrapped object and sets
`new_data_ = true`.  The returned `Immutable` stays with the caller (it is
accounted for inside `commitImm`). -/
def ssoCommit (s : SSOState) (v : Nat) : SSOState :=
  { s with obj := (commitImm s.obj v).1, newData := true }

/-- A `SignalSyncObject` together with the `SyncSignal` it watches. -/
structure SSOSys where
  sso : SSOState
  sig : Nat

/-- Events of the signal-synced system: a writer-side commit, a reader-side
`get_data`, and a signal increment (`SyncSignal::operator()`). -/
inductive SSOOp where
  | commit (v : Nat)
  | getData
  | tick
deriving DecidableEq

/-- Effect of one event on the signal-synced system. -/
def ssoStep : SSOOp → SSOSys → SSOSys
  | .commit v, ⟨s, g⟩ => ⟨ssoCommit s v, g⟩
  | .getData, ⟨s, g⟩ => ⟨(ssoGetData g s).1, g⟩
  | .tick, ⟨s, g⟩ => ⟨s, syncSignalBump g⟩

/-- Apply a sequence of system events in order. -/
def ssoTrace (t : List SSOOp) (sys : SSOSys) : SSOSys :=
  t.foldl (fun sys op => ssoStep op sys) sys

/-- State of a `SignalSyncObjectPair<T>`: the wrapped `Object`, the shared
`slot_value_` and `new_data_` flag, and the two `retrieved_` slots
(`false` standing for index `0`, `true` for index `1`). -/
structure SSOPState where
  obj : ObjState
  slotValue : Nat
  r0 : Option Nat
  r1 : Option Nat
  newData : Bool

/-- `retrieved_[idx]` of the pair cache. -/
def pairSlot (s : SSOPState) (idx : Bool) : Option Nat :=
  if idx then s.r1 else s.r0

/-- `SignalSyncObjectPair::update(idx)` given the current signal value:
if the signal advanced, exchange `new_data_` to `false` and, if it was
set, store `object_.read().get()` into `retrieved_[idx]`; then
`slot_value_ = signal_value`. -/
def pairUpdate (sig : Nat) (idx : Bool) (s : SSOPState) : SSOPState :=
  let s1 :=
    if s.slotValue < sig then
      if s.newData then
        let o1 := match pairSlot s idx with
                  | none => s.obj
                  | some j => destroySnapImm s.obj j
        let o2 := acquireImm o1
        let s' := { s with obj := o2.1, newData := false }
        if idx then { s' with r1 := o2.2 } else { s' with r0 := o2.2 }
      else { s with newData := false }
    else s
  { s1 with slotValue := sig }

/-- `SignalSyncObjectPair::get_data(idx)`: return `*retrieved_[idx]` if
that slot holds a value, else fall back to `*retrieved_[flip(idx)]`, else
run `update(idx)` and return the freshly stored slot.  The returned value
is the dereferenced data. -/
def pairGetData (sig : Nat) (idx : Bool) (s : SSOPState) : SSOPState × Option Nat :=
  if (pairSlot s idx).isSome then (s, derefImm s.obj (pairSlot s idx))
  else if (pairSlot s (!idx)).isSome then (s, derefImm s.obj (pairSlot s (!idx)))
  else
    let s' := pairUpdate sig idx s
    (s', derefImm s'.obj (pairSlot s' idx))

/-! The reference-counting invariant tying heap counts to the live
snapshot multiset and the writer-retained `last_written_ref_`. -/

/-- Invariant of reachable cell states: every live record's `ref_count_`
equals the number of live external `Immutable`s on it plus one if
`last_written_ref_` holds it; deleted records have no live handles;
`last_written_record_` and the record held by `last_written_ref_`
coincide; indices at or above the allocation counter are unused. -/
structure INV (s : ObjState) : Prop where
  count_eq : ∀ i r, s.heap i = some r →
    r.refCount = (s.snaps i : Int) + (if s.lwRef = some i then 1 else 0)
  dead_snaps : ∀ i, s.heap i = none → s.snaps i = 0
  dead_lw : ∀ i, s.heap i = none → s.lwRef ≠ some i
  lw_eq : s.lastWritten = s.lwRef
  fresh : ∀ i, s.nextId ≤ i → s.heap i = none

/-! Pointwise characterizations of the primitive heap operations. -/

lemma refAdd_heap (s : ObjState) (i x : Nat) :
    (refAdd s i).heap x =
      if x = i then (s.heap x).map (fun r => ⟨r.data, r.refCount + 1⟩) else s.heap x := by
  unfold refAdd
  cases h : s.heap i with
  | none =>
    by_cases hx : x = i
    · subst hx; simp [h]
    · simp [hx]
  | some r =>
    by_cases hx : x = i
    · subst hx; simp [h, Function.update_apply]
    · simp [hx, Function.update_apply]

@[simp] lemma refAdd_nextId (s : ObjState) (i : Nat) : (refAdd s i).nextId = s.nextId := by
  unfold refAdd; cases h : s.heap i <;> rfl

@[simp] lemma refAdd_flag (s : ObjState) (i : Nat) : (refAdd s i).flag = s.flag := by
  unfold refAdd; cases h : s.heap i <;> rfl

@[simp] lemma refAdd_lastWritten (s : ObjState) (i : Nat) :
    (refAdd s i).lastWritten = s.lastWritten := by
  unfold refAdd; cases h : s.heap i <;> rfl

@[simp] lemma refAdd_lwRef (s : ObjState) (i : Nat) : (refAdd s i).lwRef = s.lwRef := by
  unfold refAdd; cases h : s.heap i <;> rfl

@[simp] lemma refAdd_snaps (s : ObjState) (i : Nat) : (refAdd s i).snaps = s.snaps := by
  unfold refAdd; cases h : s.heap i <;> rfl

lemma unrefA_heap (s : ObjState) (i x : Nat) :
    ((unrefA s i).1).heap x =
      if x = i then (s.heap x).map (fun r => ⟨r.data, r.refCount - 1⟩) else s.heap x := by
  unfold unrefA
  cases h : s.heap i with
  | none =>
    by_cases hx : x = i
    · subst hx; simp [h]
    · simp [hx]
  | some r =>
    by_cases hx : x = i
    · subst hx; dsimp only; split <;> simp [h, Function.update_apply]
    · dsimp only; split <;> simp [hx, Function.update_apply]

@[simp] lemma unrefA_nextId (s : ObjState) (i : Nat) : ((unrefA s i).1).nextId = s.nextId := by
  unfold unrefA
  cases h : s.heap i
  · rfl
  · dsimp only; split <;> rfl

@[simp] lemma unrefA_lastWritten (s : ObjState) (i : Nat) :
    ((unrefA s i).1).lastWritten = s.lastWritten := by
  unfold unrefA
  cases h : s.heap i
  · rfl
  · dsimp only; split <;> rfl

@[simp] lemma unrefA_lwRef (s : ObjState) (i : Nat) : ((unrefA s i).1).lwRef = s.lwRef := by
  unfold unrefA
  cases h : s.heap i
  · rfl
  · dsimp only; split <;> rfl

@[simp] lemma unrefA_snaps (s : ObjState) (i : Nat) : ((unrefA s i).1).snaps = s.snaps := by
  unfold unrefA
  cases h : s.heap i
  · rfl
  · dsimp only; split <;> rfl

lemma unrefA_flag_ne (s : ObjState) (i x : Nat) (hx : x ≠ i) :
    ((unrefA s i).1).flag x = s.flag x := by
  unfold unrefA
  cases h : s.heap i with
  | none => rfl
  | some r => dsimp only; split <;> simp [Function.update_apply, hx]

lemma collect_heap_none (s : ObjState) (x : Nat) (h : s.heap x = none) :
    (collectBook s).heap x = none := by
  simp [collectBook, h]

lemma collect_heap_some (s : ObjState) (x : Nat) (r : RecordState) (h : s.heap x = some r) :
    (collectBook s).heap x = if s.flag x = true ∧ r.refCount = 0 then none else some r := by
  simp [collectBook, h]

@[simp] lemma collect_nextId (s : ObjState) : (collectBook s).nextId = s.nextId := rfl

@[simp] lemma collect_lastWritten (s : ObjState) :
    (collectBook s).lastWritten = s.lastWritten := rfl

@[simp] lemma collect_lwRef (s : ObjState) : (collectBook s).lwRef = s.lwRef := rfl

@[simp] lemma collect_snaps (s : ObjState) : (collectBook s).snaps = s.snaps := rfl

lemma unrefA_flag_self (s : ObjState) (i : Nat) (r : RecordState) (h : s.heap i = some r) :
    ((unrefA s i).1).flag i = if r.refCount = 1 then true else s.flag i := by
  unfold unrefA
  rw [h]
  dsimp only
  split <;> simp [Function.update_apply]

/-! Characterization of `commitImm`. -/

lemma commit_nextId (s : ObjState) (v : Nat) :
    ((commitImm s v).1).nextId = s.nextId + 1 := by
  unfold commitImm
  simp only [refAdd_lwRef, refAdd_lastWritten]
  cases hlw : s.lwRef <;>
    simp [collect_nextId, refAdd_nextId, unrefA_nextId]

lemma commit_lastWritten (s : ObjState) (v : Nat) :
    ((commitImm s v).1).lastWritten = some s.nextId := by
  unfold commitImm
  simp only [refAdd_lwRef, refAdd_lastWritten]
  cases hlw : s.lwRef <;>
    simp [collect_lastWritten, refAdd_lastWritten, unrefA_lastWritten]

lemma commit_lwRef (s : ObjState) (v : Nat) :
    ((commitImm s v).1).lwRef = some s.nextId := by
  unfold commitImm
  simp only [refAdd_lwRef, refAdd_lastWritten]
  cases hlw : s.lwRef <;>
    simp [collect_lwRef, refAdd_lwRef, unrefA_lwRef]

lemma commit_snaps (s : ObjState) (v : Nat) (x : Nat) :
    ((commitImm s v).1).snaps x =
      if x = s.nextId then s.snaps s.nextId + 1 else s.snaps x := by
  unfold commitImm
  simp only [refAdd_lwRef, refAdd_lastWritten]
  cases hlw : s.lwRef <;>
    simp [collect_snaps, refAdd_snaps, unrefA_snaps, Function.update_apply]

lemma unrefA_flag (s : ObjState) (i x : Nat) :
    ((unrefA s i).1).flag x =
      if x = i then
        (match s.heap i with
         | none => s.flag x
         | some r => if r.refCount = 1 then true else s.flag x)
      else s.flag x := by
  unfold unrefA
  cases h : s.heap i with
  | none => by_cases hx : x = i <;> simp [hx]
  | some r =>
    dsimp only
    by_cases hx : x = i
    · subst hx; split <;> simp [Function.update_apply, *]
    · split <;> simp [Function.update_apply, hx]

lemma commit_heap_new (s : ObjState) (v : Nat) (hlw : s.lwRef ≠ some s.nextId) :
    ((commitImm s v).1).heap s.nextId = some ⟨v, 2⟩ := by
  have hmain : ∀ t : ObjState, t.heap s.nextId = some ⟨v, 2⟩ → t.flag s.nextId = false →
      (collectBook t).heap s.nextId = some ⟨v, 2⟩ := by
    intro t h1 h2
    rw [collect_heap_some _ _ _ h1]
    simp [h2]
  unfold commitImm
  simp only [refAdd_lwRef, refAdd_lastWritten]
  cases hlwe : s.lwRef with
  | none =>
    dsimp only
    apply hmain
    · norm_num [refAdd_heap, Function.update_apply]
    · simp [refAdd_flag, Function.update_apply]
  | some j =>
    have hj : j ≠ s.nextId := fun h => hlw (hlwe.trans (by rw [h]))
    dsimp only
    apply hmain
    · norm_num [refAdd_heap, unrefA_heap, Function.update_apply, Ne.symm hj]
    · simp [refAdd_flag, unrefA_flag, Function.update_apply, Ne.symm hj]

lemma commit_heap_other (s : ObjState) (v : Nat) (x : Nat)
    (hx : x ≠ s.nextId) (hxl : s.lwRef ≠ some x) :
    ((commitImm s v).1).heap x = (collectBook s).heap x := by
  have hmain : ∀ t : ObjState, t.heap x = s.heap x → t.flag x = s.flag x →
      (collectBook t).heap x = (collectBook s).heap x := by
    intro t h1 h2
    cases hh : s.heap x with
    | none => rw [collect_heap_none _ _ (h1.trans hh), collect_heap_none _ _ hh]
    | some r =>
      rw [collect_heap_some _ _ r (h1.trans hh), collect_heap_some _ _ r hh, h2]
  unfold commitImm
  simp only [refAdd_lwRef, refAdd_lastWritten]
  cases hlwe : s.lwRef with
  | none =>
    dsimp only
    apply hmain
    · simp [refAdd_heap, Function.update_apply, hx]
    · simp [refAdd_flag, Function.update_apply, hx]
  | some j =>
    have hjx : j ≠ x := fun h => hxl (hlwe.trans (by rw [h]))
    dsimp only
    apply hmain
    · simp [refAdd_heap, unrefA_heap, Function.update_apply, hx, Ne.symm hjx]
    · simp [refAdd_flag, unrefA_flag, Function.update_apply, hx, Ne.symm hjx]

lemma commit_heap_lwOld (s : ObjState) (v : Nat) (j : Nat) (r : RecordState)
    (hj : s.lwRef = some j) (hij : j ≠ s.nextId) (hr : s.heap j = some r) :
    ((commitImm s v).1).heap j =
      if r.refCount - 1 = 0 then none else some ⟨r.data, r.refCount - 1⟩ := by
  have hmain : ∀ t : ObjState, t.heap j = some ⟨r.data, r.refCount - 1⟩ →
      t.flag j = (if r.refCount = 1 then true else s.flag j) →
      (collectBook t).heap j =
        if r.refCount - 1 = 0 then none else some ⟨r.data, r.refCount - 1⟩ := by
    intro t h1 h2
    rw [collect_heap_some _ _ _ h1, h2]
    by_cases hrc : r.refCount = 1
    · simp [hrc]
    · have h0 : ¬(r.refCount - 1 = 0) := fun hq => hrc (by omega)
      simp [hrc, h0]
  unfold commitImm
  simp only [refAdd_lwRef, refAdd_lastWritten]
  rw [hj]
  dsimp only
  apply hmain
  · simp [refAdd_heap, unrefA_heap, Function.update_apply, hij, hr]
  · simp [refAdd_flag, unrefA_flag, refAdd_heap, Function.update_apply, hij, hr]

/-! Characterization of `acquireImm`, `destroySnapImm`, `copyImm`. -/

lemma acquire_snd (s : ObjState) : (acquireImm s).2 = s.lastWritten := by
  cases h : s.lastWritten <;> simp [acquireImm, h]

lemma acquire_state_none (s : ObjState) (h : s.lastWritten = none) :
    (acquireImm s).1 = s := by
  simp [acquireImm, h]

lemma acquire_heap_some (s : ObjState) (i : Nat) (h : s.lastWritten = some i) :
    ((acquireImm s).1).heap = (refAdd s i).heap := by
  simp [acquireImm, h]

lemma acquire_snaps_some (s : ObjState) (i : Nat) (h : s.lastWritten = some i) :
    ((acquireImm s).1).snaps = Function.update s.snaps i (s.snaps i + 1) := by
  simp [acquireImm, h]

@[simp] lemma acquire_lastWritten (s : ObjState) :
    ((acquireImm s).1).lastWritten = s.lastWritten := by
  cases h : s.lastWritten <;> simp [acquireImm, h]

@[simp] lemma acquire_lwRef (s : ObjState) : ((acquireImm s).1).lwRef = s.lwRef := by
  cases h : s.lastWritten <;> simp [acquireImm, h]

@[simp] lemma acquire_nextId (s : ObjState) : ((acquireImm s).1).nextId = s.nextId := by
  cases h : s.lastWritten <;> simp [acquireImm, h]

lemma destroy_heap (s : ObjState) (i x : Nat) :
    (destroySnapImm s i).heap x =
      if 0 < s.snaps i ∧ x = i then (s.heap x).map (fun r => ⟨r.data, r.refCount - 1⟩)
      else s.heap x := by
  unfold destroySnapImm
  split
  · rename_i hpos
    rw [unrefA_heap]
    by_cases hx : x = i <;> simp [hx, hpos]
  · rename_i hpos
    simp [hpos]

lemma destroy_snaps (s : ObjState) (i x : Nat) :
    (destroySnapImm s i).snaps x =
      if 0 < s.snaps i ∧ x = i then s.snaps i - 1 else s.snaps x := by
  unfold destroySnapImm
  split
  · rename_i hpos
    rw [unrefA_snaps]
    by_cases hx : x = i <;> simp [hx, hpos, Function.update_apply]
  · rename_i hpos
    simp [hpos]

@[simp] lemma destroy_lastWritten (s : ObjState) (i : Nat) :
    (destroySnapImm s i).lastWritten = s.lastWritten := by
  unfold destroySnapImm
  split
  · rw [unrefA_lastWritten]
  · rfl

@[simp] lemma destroy_lwRef (s : ObjState) (i : Nat) :
    (destroySnapImm s i).lwRef = s.lwRef := by
  unfold destroySnapImm
  split
  · rw [unrefA_lwRef]
  · rfl

@[simp] lemma destroy_nextId (s : ObjState) (i : Nat) :
    (destroySnapImm s i).nextId = s.nextId := by
  unfold destroySnapImm
  split
  · rw [unrefA_nextId]
  · rfl

lemma copy_state_none (s : ObjState) (h : s.lastWritten = none) :
    (copyImm s).1 = s := by
  simp [copyImm, h]

lemma copy_snd_none (s : ObjState) (h : s.lastWritten = none) :
    (copyImm s).2 = none := by
  simp [copyImm, h]

lemma copy_heap_some (s : ObjState) (i : Nat) (h : s.lastWritten = some i) (x : Nat) :
    ((copyImm s).1).heap x = s.heap x := by
  have : ((copyImm s).1).heap x = ((unrefA (refAdd s i) i).1).heap x := by
    simp [copyImm, h]
  rw [this, unrefA_heap]
  by_cases hx : x = i
  · subst hx
    rw [refAdd_heap]
    simp only [if_pos rfl]
    cases hh : s.heap x with
    | none => simp
    | some r => cases r with
      | mk d c => simp
  · rw [refAdd_heap]
    simp [hx]

lemma copy_snaps_some (s : ObjState) (i : Nat) (h : s.lastWritten = some i) :
    ((copyImm s).1).snaps = s.snaps := by
  simp [copyImm, h]

@[simp] lemma copy_lastWritten (s : ObjState) :
    ((copyImm s).1).lastWritten = s.lastWritten := by
  cases h : s.lastWritten <;> simp [copyImm, h]

@[simp] lemma copy_lwRef (s : ObjState) : ((copyImm s).1).lwRef = s.lwRef := by
  cases h : s.lastWritten <;> simp [copyImm, h]

@[simp] lemma copy_nextId (s : ObjState) : ((copyImm s).1).nextId = s.nextId := by
  cases h : s.lastWritten <;> simp [copyImm, h]

lemma inv_init : INV initObj := by
  constructor <;> simp [initObj]

lemma inv_collect (s : ObjState) (h : INV s) : INV (collectBook s) := by
  obtain ⟨hc, hds, hdl, hlw, hfr⟩ := h
  constructor
  · intro i r hi
    cases hh : s.heap i with
    | none => rw [collect_heap_none _ _ hh] at hi; exact absurd hi (by simp)
    | some r0 =>
      rw [collect_heap_some _ _ r0 hh] at hi
      by_cases hcond : s.flag i = true ∧ r0.refCount = 0
      · simp [hcond] at hi
      · rw [if_neg hcond] at hi
        cases hi
        simpa using hc i _ hh
  · intro i hi
    cases hh : s.heap i with
    | none => simpa using hds i hh
    | some r0 =>
      rw [collect_heap_some _ _ r0 hh] at hi
      by_cases hcond : s.flag i = true ∧ r0.refCount = 0
      · have := hc i r0 hh
        by_cases hli : s.lwRef = some i
        · rw [if_pos hli] at this
          omega
        · rw [if_neg hli] at this
          simp only [collect_snaps]
          omega
      · simp [hcond] at hi
  · intro i hi
    cases hh : s.heap i with
    | none => simpa using hdl i hh
    | some r0 =>
      rw [collect_heap_some _ _ r0 hh] at hi
      by_cases hcond : s.flag i = true ∧ r0.refCount = 0
      · have := hc i r0 hh
        by_cases hli : s.lwRef = some i
        · rw [if_pos hli] at this; omega
        · simpa using hli
      · simp [hcond] at hi
  · simpa using hlw
  · intro i hi
    exact collect_heap_none _ _ (hfr i (by simpa using hi))

lemma inv_acquire (s : ObjState) (h : INV s) : INV (acquireImm s).1 := by
  obtain ⟨hc, hds, hdl, hlw, hfr⟩ := h
  cases hl : s.lastWritten with
  | none => rw [acquire_state_none s hl]; exact ⟨hc, hds, hdl, hlw, hfr⟩
  | some i =>
    have hlr : s.lwRef = some i := hlw.symm.trans hl
    have hhi : s.heap i ≠ none := fun hn => hdl i hn hlr
    obtain ⟨ri, hri⟩ := Option.ne_none_iff_exists'.mp hhi
    constructor
    · intro x r hx
      rw [acquire_heap_some s i hl, refAdd_heap] at hx
      rw [acquire_snaps_some s i hl, acquire_lwRef]
      by_cases hxi : x = i
      · subst hxi
        rw [if_pos rfl, hri] at hx
        cases hx
        have := hc x ri hri
        rw [if_pos hlr] at this
        simp [Function.update_apply, hlr, this]
      · rw [if_neg hxi] at hx
        have := hc x r hx
        simp [Function.update_apply, hxi, this]
    · intro x hx
      rw [acquire_heap_some s i hl, refAdd_heap] at hx
      by_cases hxi : x = i
      · subst hxi; rw [if_pos rfl, hri] at hx; exact absurd hx (by simp)
      · rw [if_neg hxi] at hx
        rw [acquire_snaps_some s i hl]
        simp [Function.update_apply, hxi]
        exact hds x hx
    · intro x hx
      rw [acquire_heap_some s i hl, refAdd_heap] at hx
      by_cases hxi : x = i
      · subst hxi; rw [if_pos rfl, hri] at hx; exact absurd hx (by simp)
      · rw [if_neg hxi] at hx
        rw [acquire_lwRef]
        exact hdl x hx
    · rw [acquire_lastWritten, acquire_lwRef]; exact hlw
    · intro x hx
      rw [acquire_heap_some s i hl, refAdd_heap]
      rw [acquire_nextId] at hx
      have hxn : s.heap x = none := hfr x hx
      by_cases hxi : x = i
      · subst hxi; rw [if_pos rfl, hxn]; rfl
      · rw [if_neg hxi]; exact hxn

lemma inv_destroy (s : ObjState) (i : Nat) (h : INV s) : INV (destroySnapImm s i) := by
  obtain ⟨hc, hds, hdl, hlw, hfr⟩ := h
  by_cases hpos : 0 < s.snaps i
  case neg =>
    have hd : destroySnapImm s i = s := by unfold destroySnapImm; simp [hpos]
    rw [hd]; exact ⟨hc, hds, hdl, hlw, hfr⟩
  case pos =>
    have hhi : s.heap i ≠ none := fun hn => by have := hds i hn; omega
    obtain ⟨ri, hri⟩ := Option.ne_none_iff_exists'.mp hhi
    constructor
    · intro x r hx
      rw [destroy_heap] at hx
      rw [destroy_snaps, destroy_lwRef]
      by_cases hxi : x = i
      · subst hxi
        rw [if_pos ⟨hpos, rfl⟩] at hx ⊢
        rw [hri] at hx
        simp only [Option.map_some'] at hx
        cases hx
        have := hc x ri hri
        dsimp only
        omega
      · rw [if_neg (by simp [hxi])] at hx ⊢
        exact hc x r hx
    · intro x hx
      rw [destroy_heap] at hx
      rw [destroy_snaps]
      by_cases hxi : x = i
      · subst hxi
        rw [if_pos ⟨hpos, rfl⟩] at hx
        rw [hri] at hx
        exact absurd hx (by simp)
      · rw [if_neg (by simp [hxi])] at hx ⊢
        exact hds x hx
    · intro x hx
      rw [destroy_heap] at hx
      rw [destroy_lwRef]
      by_cases hxi : x = i
      · subst hxi
        rw [if_pos ⟨hpos, rfl⟩] at hx
        rw [hri] at hx
        exact absurd hx (by simp)
      · rw [if_neg (by simp [hxi])] at hx
        exact hdl x hx
    · rw [destroy_lastWritten, destroy_lwRef]; exact hlw
    · intro x hx
      rw [destroy_nextId] at hx
      rw [destroy_heap]
      have hxn : s.heap x = none := hfr x hx
      by_cases hxi : 0 < s.snaps i ∧ x = i
      · rw [if_pos hxi, hxn]; rfl
      · rw [if_neg hxi]; exact hxn

lemma inv_copy (s : ObjState) (h : INV s) : INV (copyImm s).1 := by
  obtain ⟨hc, hds, hdl, hlw, hfr⟩ := h
  cases hl : s.lastWritten with
  | none => rw [copy_state_none s hl]; exact ⟨hc, hds, hdl, hlw, hfr⟩
  | some i =>
    constructor
    · intro x r hx
      rw [copy_heap_some s i hl] at hx
      rw [copy_snaps_some s i hl, copy_lwRef]
      exact hc x r hx
    · intro x hx
      rw [copy_heap_some s i hl] at hx
      rw [copy_snaps_some s i hl]
      exact hds x hx
    · intro x hx
      rw [copy_heap_some s i hl] at hx
      rw [copy_lwRef]
      exact hdl x hx
    · rw [copy_lastWritten, copy_lwRef]; exact hlw
    · intro x hx
      rw [copy_nextId] at hx
      rw [copy_heap_some s i hl]
      exact hfr x hx

lemma inv_commit (s : ObjState) (v : Nat) (h : INV s) : INV (commitImm s v).1 := by
  obtain ⟨hc, hds, hdl, hlw, hfr⟩ := h
  have hnew : s.heap s.nextId = none := hfr s.nextId le_rfl
  have hlwid : s.lwRef ≠ some s.nextId := hdl s.nextId hnew
  have hheapnew := commit_heap_new s v hlwid
  constructor
  · intro x r hx
    rw [commit_snaps, commit_lwRef]
    by_cases hxid : x = s.nextId
    · subst hxid
      rw [hheapnew] at hx
      cases hx
      rw [if_pos rfl, if_pos rfl]
      have : s.snaps s.nextId = 0 := hds s.nextId hnew
      rw [this]
      norm_num
    · rw [if_neg hxid, if_neg (fun hq => hxid (Option.some.inj hq).symm)]
      by_cases hxl : s.lwRef = some x
      · obtain ⟨r0, hr0⟩ := Option.ne_none_iff_exists'.mp (fun hn => hdl x hn hxl)
        rw [commit_heap_lwOld s v x r0 hxl hxid hr0] at hx
        by_cases hz : r0.refCount - 1 = 0
        · simp [hz] at hx
        · rw [if_neg hz] at hx
          cases hx
          have := hc x r0 hr0
          rw [if_pos hxl] at this
          dsimp only
          omega
      · rw [commit_heap_other s v x hxid hxl] at hx
        cases hh : s.heap x with
        | none => rw [collect_heap_none _ _ hh] at hx; exact absurd hx (by simp)
        | some r0 =>
          rw [collect_heap_some _ _ r0 hh] at hx
          by_cases hcond : s.flag x = true ∧ r0.refCount = 0
          · simp [hcond] at hx
          · rw [if_neg hcond] at hx
            cases hx
            have := hc x _ hh
            rw [if_neg hxl] at this
            exact this
  · intro x hx
    rw [commit_snaps]
    by_cases hxid : x = s.nextId
    · subst hxid; rw [hheapnew] at hx; exact absurd hx (by simp)
    · rw [if_neg hxid]
      by_cases hxl : s.lwRef = some x
      · obtain ⟨r0, hr0⟩ := Option.ne_none_iff_exists'.mp (fun hn => hdl x hn hxl)
        rw [commit_heap_lwOld s v x r0 hxl hxid hr0] at hx
        by_cases hz : r0.refCount - 1 = 0
        · have := hc x r0 hr0
          rw [if_pos hxl] at this
          omega
        · rw [if_neg hz] at hx
          exact absurd hx (by simp)
      · rw [commit_heap_other s v x hxid hxl] at hx
        cases hh : s.heap x with
        | none => exact hds x hh
        | some r0 =>
          rw [collect_heap_some _ _ r0 hh] at hx
          by_cases hcond : s.flag x = true ∧ r0.refCount = 0
          · have := hc x r0 hh
            rw [if_neg hxl] at this
            omega
          · rw [if_neg hcond] at hx
            exact absurd hx (by simp)
  · intro x hx
    rw [commit_lwRef]
    intro hq
    cases hq
    rw [hheapnew] at hx
    exact absurd hx (by simp)
  · rw [commit_lastWritten, commit_lwRef]
  · intro x hx
    rw [commit_nextId] at hx
    have hxid : x ≠ s.nextId := by omega
    have hxl : s.lwRef ≠ some x := hdl x (hfr x (by omega))
    rw [commit_heap_other s v x hxid hxl]
    exact collect_heap_none _ _ (hfr x (by omega))

lemma inv_step (op : Op) (s : ObjState) (h : INV s) : INV (stepOp op s) := by
  cases op with
  | commit v => exact inv_commit s v h
  | acquire => exact inv_acquire s h
  | destroySnap i => exact inv_destroy s i h
  | copy => exact inv_copy s h
  | collect => exact inv_collect s h

lemma applyTrace_nil (s : ObjState) : applyTrace [] s = s := rfl

lemma applyTrace_cons (op : Op) (t : List Op) (s : ObjState) :
    applyTrace (op :: t) s = applyTrace t (stepOp op s) := rfl

lemma inv_applyTrace (t : List Op) (s : ObjState) (h : INV s) : INV (applyTrace t s) := by
  induction t generalizing s with
  | nil => exact h
  | cons op t ih => exact ih (stepOp op s) (inv_step op s h)

lemma inv_reach (s : ObjState) (h : ReachObj s) : INV s := by
  obtain ⟨t, rfl⟩ := h
  exact inv_applyTrace t initObj inv_init

/-- One step never deletes (nor mutates the data of) a record that a live
external snapshot keeps referenced. -/
lemma step_alive (op : Op) (s : ObjState) (h : INV s) (i : Nat) (r : RecordState)
    (hi : s.heap i = some r) (hs : 0 < s.snaps i) :
    ∃ r' : RecordState, (stepOp op s).heap i = some r' ∧ r'.data = r.data := by
  obtain ⟨hc, hds, hdl, hlw, hfr⟩ := h
  have hid : i ≠ s.nextId := by
    intro hq
    rw [hfr i (le_of_eq hq.symm)] at hi
    exact absurd hi (by simp)
  cases op with
  | commit v =>
    show ∃ r', ((commitImm s v).1).heap i = some r' ∧ r'.data = r.data
    by_cases hxl : s.lwRef = some i
    · have := hc i r hi
      rw [if_pos hxl] at this
      rw [commit_heap_lwOld s v i r hxl hid hi]
      have hnz : ¬(r.refCount - 1 = 0) := by omega
      rw [if_neg hnz]
      exact ⟨_, rfl, rfl⟩
    · rw [commit_heap_other s v i hid hxl, collect_heap_some _ _ r hi]
      have := hc i r hi
      rw [if_neg hxl] at this
      have hnz : ¬(s.flag i = true ∧ r.refCount = 0) := by
        rintro ⟨-, h0⟩
        omega
      rw [if_neg hnz]
      exact ⟨r, rfl, rfl⟩
  | acquire =>
    show ∃ r', ((acquireImm s).1).heap i = some r' ∧ r'.data = r.data
    cases hl : s.lastWritten with
    | none =>
      rw [acquire_state_none s hl, hi]
      exact ⟨r, rfl, rfl⟩
    | some k =>
      rw [acquire_heap_some s k hl, refAdd_heap]
      by_cases hik : i = k
      · rw [if_pos hik, hi]
        exact ⟨_, rfl, rfl⟩
      · rw [if_neg hik, hi]
        exact ⟨r, rfl, rfl⟩
  | destroySnap j =>
    show ∃ r', (destroySnapImm s j).heap i = some r' ∧ r'.data = r.data
    rw [destroy_heap]
    by_cases hcond : 0 < s.snaps j ∧ i = j
    · rw [if_pos hcond, hi]
      exact ⟨_, rfl, rfl⟩
    · rw [if_neg hcond, hi]
      exact ⟨r, rfl, rfl⟩
  | copy =>
    show ∃ r', ((copyImm s).1).heap i = some r' ∧ r'.data = r.data
    cases hl : s.lastWritten with
    | none =>
      rw [copy_state_none s hl, hi]
      exact ⟨r, rfl, rfl⟩
    | some k =>
      rw [copy_heap_some s k hl, hi]
      exact ⟨r, rfl, rfl⟩
  | collect =>
    show ∃ r', (collectBook s).heap i = some r' ∧ r'.data = r.data
    rw [collect_heap_some _ _ r hi]
    have := hc i r hi
    have hnz : ¬(s.flag i = true ∧ r.refCount = 0) := by
      rintro ⟨-, h0⟩
      by_cases hxl : s.lwRef = some i
      · rw [if_pos hxl] at this; omega
      · rw [if_neg hxl] at this; omega
    rw [if_neg hnz]
    exact ⟨r, rfl, rfl⟩

/-- A non-commit step keeps `last_written_record_` pointing at the same
record, with its data intact (the writer-retained reference keeps its
count positive, so `collect` cannot delete it). -/
lemma step_keepsCurrent (op : Op) (s : ObjState) (h : INV s) (i : Nat) (r : RecordState)
    (hl : s.lastWritten = some i) (hi : s.heap i = some r) (hop : isCommitOp op = false) :
    (stepOp op s).lastWritten = some i ∧
      ∃ r', (stepOp op s).heap i = some r' ∧ r'.data = r.data := by
  obtain ⟨hc, hds, hdl, hlw, hfr⟩ := h
  have hlr : s.lwRef = some i := hlw.symm.trans hl
  cases op with
  | commit v => simp [isCommitOp] at hop
  | acquire =>
    refine ⟨by rw [show stepOp Op.acquire s = (acquireImm s).1 from rfl, acquire_lastWritten, hl], ?_⟩
    show ∃ r', ((acquireImm s).1).heap i = some r' ∧ r'.data = r.data
    rw [acquire_heap_some s i hl, refAdd_heap, if_pos rfl, hi]
    exact ⟨_, rfl, rfl⟩
  | destroySnap j =>
    refine ⟨by rw [show stepOp (Op.destroySnap j) s = destroySnapImm s j from rfl, destroy_lastWritten, hl], ?_⟩
    show ∃ r', (destroySnapImm s j).heap i = some r' ∧ r'.data = r.data
    rw [destroy_heap]
    by_cases hcond : 0 < s.snaps j ∧ i = j
    · rw [if_pos hcond, hi]
      exact ⟨_, rfl, rfl⟩
    · rw [if_neg hcond, hi]
      exact ⟨r, rfl, rfl⟩
  | copy =>
    refine ⟨by rw [show stepOp Op.copy s = (copyImm s).1 from rfl, copy_lastWritten, hl], ?_⟩
    show ∃ r', ((copyImm s).1).heap i = some r' ∧ r'.data = r.data
    rw [copy_heap_some s i hl, hi]
    exact ⟨r, rfl, rfl⟩
  | collect =>
    refine ⟨hl, ?_⟩
    show ∃ r', (collectBook s).heap i = some r' ∧ r'.data = r.data
    rw [collect_heap_some _ _ r hi]
    have := hc i r hi
    rw [if_pos hlr] at this
    have hnz : ¬(s.flag i = true ∧ r.refCount = 0) := by
      rintro ⟨-, h0⟩
      omega
    rw [if_neg hnz]
    exact ⟨r, rfl, rfl⟩

lemma alive_trace (t : List Op) : ∀ s, INV s → ∀ i r, s.heap i = some r →
    (∀ n, n ≤ t.length → 0 < (applyTrace (t.take n) s).snaps i) →
    ∃ r', (applyTrace t s).heap i = some r' ∧ r'.data = r.data := by
  induction t with
  | nil =>
    intro s _ i r hi _
    exact ⟨r, hi, rfl⟩
  | cons op t ih =>
    intro s hinv i r hi hsn
    have h0 : 0 < s.snaps i := hsn 0 (Nat.zero_le _)
    obtain ⟨r1, hr1, hd1⟩ := step_alive op s hinv i r hi h0
    rw [applyTrace_cons]
    obtain ⟨r', hr', hd'⟩ := ih (stepOp op s) (inv_step op s hinv) i r1 hr1
      (fun n hn => hsn (n + 1) (Nat.succ_le_succ hn))
    exact ⟨r', hr', hd'.trans hd1⟩

lemma refSub_keeps (h : Nat → Option CBState) (i j : Nat) (cb : CBState)
    (hcb : h i = some cb) (hcond : i ≠ j ∨ 2 ≤ cb.refCount) :
    ∃ cb', refSub h j i = some cb' ∧ cb'.value = cb.value := by
  unfold refSub
  cases hj : h j with
  | none => exact ⟨cb, hcb, rfl⟩
  | some cbj =>
    dsimp only
    by_cases hij : i = j
    · subst hij
      rw [hcb] at hj
      cases hj
      rcases hcond with hne | hge
      · exact absurd rfl hne
      · have hone : ¬(cb.refCount = 1) := by omega
        rw [if_neg hone]
        exact ⟨⟨cb.value, cb.refCount - 1⟩, by simp [Function.update_apply], rfl⟩
    · split
      · exact ⟨cb, by simp [Function.update_apply, hij, hcb], rfl⟩
      · exact ⟨cb, by simp [Function.update_apply, hij, hcb], rfl⟩

/-- C1: for every live snapshot (one accounted for in the positive
reference count of its record), no operation on the owning cell — commit,
collect, copy, reads, or destruction of other snapshots — deletes the
referenced block, and its stored data is unchanged for the snapshot's
whole lifetime, across arbitrarily many commits.  Likewise, in the oldest
variant, `ref::ref_sub` run by the destruction of another `ref` never
deletes a control block that a live snapshot still accounts for. -/
theorem noPrematureReclamation :
    (∀ s, ReachObj s → ∀ i r, s.heap i = some r →
      ∀ t : List Op, (∀ n, n ≤ t.length → 0 < (applyTrace (t.take n) s).snaps i) →
      ∃ r', (applyTrace t s).heap i = some r' ∧ r'.data = r.data)
    ∧
    (∀ (h : Nat → Option CBState) (i j : Nat) (cb : CBState), h i = some cb →
      (i ≠ j ∨ 2 ≤ cb.refCount) →
      ∃ cb', refSub h j i = some cb' ∧ cb'.value = cb.value) := by
  constructor
  · intro s hre i r hi t hsn
    exact alive_trace t s (inv_reach s hre) i r hi hsn
  · exact refSub_keeps

/-- Witness for C1 at concrete inputs: a snapshot of the first committed
record (value `5`) survives two further commits, a sweep and an acquire,
and the `ref_sub` conjunct applies to a block with two references. -/
theorem noPrematureReclamation_check :
    (∃ r' : RecordState,
      (applyTrace [Op.commit 7, Op.collect, Op.acquire, Op.commit 9]
        (applyTrace [Op.commit 5] initObj)).heap 0 = some r' ∧ r'.data = 5)
    ∧
    (∃ cb' : CBState,
      refSub (Function.update (fun _ => none) 0 (some ⟨5, 2⟩)) 0 0 = some cb' ∧
        cb'.value = 5) :=
  ⟨noPrematureReclamation.1 (applyTrace [Op.commit 5] initObj) ⟨[Op.commit 5], rfl⟩
      0 ⟨5, 2⟩ (by decide) [Op.commit 7, Op.collect, Op.acquire, Op.commit 9] (by decide),
    noPrematureReclamation.2 (Function.update (fun _ => none) 0 (some ⟨5, 2⟩)) 0 0
      ⟨5, 2⟩ (by simp) (Or.inr (by norm_num))⟩

lemma keepsCurrent_trace (t : List Op) : ∀ s, INV s → ∀ i r, s.lastWritten = some i →
    s.heap i = some r → (∀ op ∈ t, isCommitOp op = false) →
    (applyTrace t s).lastWritten = some i ∧
      ∃ r', (applyTrace t s).heap i = some r' ∧ r'.data = r.data := by
  induction t with
  | nil =>
    intro s _ i r hl hi _
    exact ⟨hl, r, hi, rfl⟩
  | cons op t ih =>
    intro s hinv i r hl hi hops
    have hop : isCommitOp op = false := hops op (by simp)
    obtain ⟨hl1, r1, hr1, hd1⟩ := step_keepsCurrent op s hinv i r hl hi hop
    rw [applyTrace_cons]
    obtain ⟨hl', r', hr', hd'⟩ := ih (stepOp op s) (inv_step op s hinv) i r1 hl1 hr1
      (fun o ho => hops o (by simp [ho]))
    exact ⟨hl', r', hr', hd'.trans hd1⟩

/-- C2: after `commit(v)` returns, and until a further commit supersedes
it, every subsequent `read().get()` and `acquire` on the same cell sees a
snapshot whose dereferenced value equals `v`, whatever non-commit
operations (reads, snapshot destructions, copies, sweeps) happen in
between. -/
theorem commitFreshness : ∀ (s : ObjState) (v : Nat), ReachObj s →
    ∀ t : List Op, (∀ op ∈ t, isCommitOp op = false) →
    readValue (applyTrace t (commitImm s v).1) = some v ∧
      derefImm (acquireImm (applyTrace t (commitImm s v).1)).1
        (acquireImm (applyTrace t (commitImm s v).1)).2 = some v := by
  intro s v hre t hops
  have hinv := inv_reach s hre
  have hinv1 := inv_commit s v hinv
  have hnew : s.heap s.nextId = none := hinv.fresh _ le_rfl
  have hlwid : s.lwRef ≠ some s.nextId := hinv.dead_lw _ hnew
  obtain ⟨hl', r', hr', hd'⟩ := keepsCurrent_trace t (commitImm s v).1 hinv1 s.nextId ⟨v, 2⟩
    (commit_lastWritten s v) (commit_heap_new s v hlwid) hops
  constructor
  · unfold readValue derefImm
    rw [hl']
    simp [hr', hd']
  · rw [acquire_snd, hl']
    unfold derefImm
    simp only [Option.bind_some, Option.some_bind]
    rw [acquire_heap_some _ _ hl', refAdd_heap, if_pos rfl, hr']
    simp [hd']

/-- Witness for C2 at concrete inputs: after committing `8` on a cell that
already held `3`, reads still see `8` after an acquire, a snapshot
destruction and a sweep. -/
theorem commitFreshness_check :
    readValue (applyTrace [Op.acquire, Op.destroySnap 1, Op.collect]
      (commitImm (applyTrace [Op.commit 3] initObj) 8).1) = some 8 ∧
      derefImm (acquireImm (applyTrace [Op.acquire, Op.destroySnap 1, Op.collect]
          (commitImm (applyTrace [Op.commit 3] initObj) 8).1)).1
        (acquireImm (applyTrace [Op.acquire, Op.destroySnap 1, Op.collect]
          (commitImm (applyTrace [Op.commit 3] initObj) 8).1)).2 = some 8 :=
  commitFreshness (applyTrace [Op.commit 3] initObj) 8 ⟨[Op.commit 3], rfl⟩
    [Op.acquire, Op.destroySnap 1, Op.collect] (by decide)

/-- C3: a snapshot acquired before a commit still dereferences to exactly
the value it referenced at acquisition time after arbitrarily many
subsequent commits on the same cell; commits never change the value seen
through an outstanding snapshot, and the snapshot stays accounted for. -/
theorem snapshotStability : ∀ s, ReachObj s → ∀ i r, s.heap i = some r →
    0 < s.snaps i → ∀ vs : List Nat,
      ∃ r', (applyTrace (vs.map Op.commit) s).heap i = some r' ∧ r'.data = r.data ∧
        0 < (applyTrace (vs.map Op.commit) s).snaps i := by
  intro s hre i r hi hs vs
  have hinv := inv_reach s hre
  clear hre
  induction vs generalizing s r with
  | nil => exact ⟨r, hi, rfl, hs⟩
  | cons v vs ih =>
    have hid : i ≠ s.nextId := by
      intro hq
      rw [hinv.fresh i (le_of_eq hq.symm)] at hi
      exact absurd hi (by simp)
    obtain ⟨r1, hr1, hd1⟩ := step_alive (Op.commit v) s hinv i r hi hs
    have hsn1 : 0 < (stepOp (Op.commit v) s).snaps i := by
      show 0 < ((commitImm s v).1).snaps i
      rw [commit_snaps, if_neg hid]
      exact hs
    have hmap : (v :: vs).map Op.commit = Op.commit v :: vs.map Op.commit := rfl
    rw [hmap, applyTrace_cons]
    obtain ⟨r', hr', hd', hsn'⟩ := ih (stepOp (Op.commit v) s) r1 hr1 hsn1
      (inv_step (Op.commit v) s hinv)
    exact ⟨r', hr', hd'.trans hd1, hsn'⟩

/-- Witness for C3 at concrete inputs: the snapshot of the first committed
record (value `4`) still reads `4` after three further commits. -/
theorem snapshotStability_check :
    ∃ r' : RecordState,
      (applyTrace ([10, 11, 12].map Op.commit)
        (applyTrace [Op.commit 4] initObj)).heap 0 = some r' ∧ r'.data = 4 ∧
        0 < (applyTrace ([10, 11, 12].map Op.commit)
          (applyTrace [Op.commit 4] initObj)).snaps 0 :=
  snapshotStability (applyTrace [Op.commit 4] initObj) ⟨[Op.commit 4], rfl⟩
    0 ⟨4, 2⟩ (by decide) (by decide) [10, 11, 12]

/-- C9: if nothing has ever been committed (`has_data()` is false),
`write().copy()` returns `nullptr`, allocates no duplicate and leaves the
cell untouched. -/
theorem copyEmptyReturnsNull : ∀ s : ObjState, objHasData s = false →
    (copyImm s).2 = none ∧ (copyImm s).1 = s := by
  intro s h
  have hl : s.lastWritten = none := by
    unfold objHasData at h
    cases hq : s.lastWritten with
    | none => rfl
    | some i => rw [hq] at h; simp at h
  exact ⟨copy_snd_none s hl, copy_state_none s hl⟩

/-- Witness for C9 at the freshly constructed empty cell. -/
theorem copyEmptyReturnsNull_check :
    (copyImm initObj).2 = none ∧ (copyImm initObj).1 = initObj :=
  copyEmptyReturnsNull initObj (by decide)

/-- C5 counterexample: in the `map` variant of `Record::unref`, destroying
an `Immutable` of a record whose count is `2` calls `dispose` although the
decrement brings the count to `1`, not `0`, and destroying the last
`Immutable` of a record whose count is `1` does not call `dispose`
although the decrement brings the count to `0` — both directions of the
claimed iff fail. -/
theorem unrefMapDisposeNotAtZero :
    ((unrefMap ⟨1, Function.update (fun _ => none) 0 (some ⟨5, 2⟩), fun _ => false,
        some 0, some 0, fun _ => 0⟩ 0).2 = true ∧
      ¬((5 : Nat) = 5 ∧ (2 : Int) - 1 = 0)) ∧
    ((unrefMap ⟨1, Function.update (fun _ => none) 0 (some ⟨5, 1⟩), fun _ => false,
        some 0, some 0, fun _ => 0⟩ 0).2 = false ∧ (1 : Int) - 1 = 0) := by
  constructor
  · constructor
    · decide
    · norm_num
  · constructor
    · decide
    · norm_num

/-- C5 amended: destroying an `Immutable` decrements the record's count by
one in both variants; the `unordered_map` variant notifies the registry
(`dispose`) iff the decrement brings the count to zero, while the `map`
variant notifies iff the decremented count equals one — one step early —
because it tests the counter after the plain `--` instead of using the
value returned by `fetch_sub`. -/
theorem unrefDisposeCharacterization : ∀ (s : ObjState) (i : Nat) (r : RecordState),
    s.heap i = some r →
    (((unrefA s i).1).heap i = some ⟨r.data, r.refCount - 1⟩ ∧
      ((unrefA s i).2 = true ↔ r.refCount - 1 = 0)) ∧
    (((unrefMap s i).1).heap i = some ⟨r.data, r.refCount - 1⟩ ∧
      ((unrefMap s i).2 = true ↔ r.refCount - 1 = 1)) := by
  intro s i r h
  refine ⟨⟨?_, ?_⟩, ⟨?_, ?_⟩⟩
  · rw [unrefA_heap]
    simp [h]
  · unfold unrefA
    rw [h]
    dsimp only
    by_cases hc : r.refCount = 1
    · simp [hc]
    · have : ¬(r.refCount - 1 = 0) := fun hq => hc (by omega)
      simp [hc, this]
  · unfold unrefMap
    rw [h]
    dsimp only
    split <;> simp [Function.update_apply]
  · unfold unrefMap
    rw [h]
    dsimp only
    by_cases hc : r.refCount - 1 = 1 <;> simp [hc]

/-- Witness for C5 at a concrete record with count `2`. -/
theorem unrefDisposeCharacterization_check :
    (((unrefA (applyTrace [Op.commit 5] initObj) 0).1).heap 0 = some ⟨5, 1⟩ ∧
      ((unrefA (applyTrace [Op.commit 5] initObj) 0).2 = true ↔ (2 : Int) - 1 = 0)) ∧
    (((unrefMap (applyTrace [Op.commit 5] initObj) 0).1).heap 0 = some ⟨5, 1⟩ ∧
      ((unrefMap (applyTrace [Op.commit 5] initObj) 0).2 = true ↔ (2 : Int) - 1 = 1)) :=
  unrefDisposeCharacterization (applyTrace [Op.commit 5] initObj) 0 ⟨5, 2⟩ (by decide)

lemma syncSignalAfter_eq (n : Nat) : syncSignalAfter n = n % 2 ^ 32 := by
  induction n with
  | zero => rfl
  | succ n ih =>
    rw [syncSignalAfter, ih, syncSignalBump]
    conv_rhs => rw [Nat.add_mod]
    norm_num

/-- C8 counterexample: `value_` is a `uint32_t`, so the 2^32-th increment
wraps the counter from `4294967295` back to `0`; the value returned after
that increment is not greater than the value before it, and the observed
values decrease. -/
theorem signalWrapsAfterMaxIncrements :
    syncSignalAfter (2 ^ 32 - 1) = 4294967295 ∧
      syncSignalAfter (2 ^ 32) = 0 ∧
      ¬ syncSignalAfter (2 ^ 32 - 1) < syncSignalAfter (2 ^ 32) := by
  have h1 : syncSignalAfter (2 ^ 32 - 1) = 4294967295 := by
    rw [syncSignalAfter_eq]
    norm_num
  have h2 : syncSignalAfter (2 ^ 32) = 0 := by
    rw [syncSignalAfter_eq]
    norm_num
  refine ⟨h1, h2, ?_⟩
  rw [h1, h2]
  norm_num

/-- C8 amended: the tick counter equals the number of increments modulo
2^32; as long as fewer than 2^32 increments have occurred, each increment
strictly increases the value returned by `get_value` and the observed
values never decrease. -/
theorem signalMonotoneBelowWrap : ∀ m n : Nat, n < 2 ^ 32 →
    syncSignalAfter n = n ∧
      (m ≤ n → syncSignalAfter m ≤ syncSignalAfter n) ∧
      (m < n → syncSignalAfter m < syncSignalAfter n) := by
  intro m n hn
  have he : ∀ k, k < 2 ^ 32 → syncSignalAfter k = k := fun k hk => by
    rw [syncSignalAfter_eq]
    exact Nat.mod_eq_of_lt hk
  refine ⟨he n hn, ?_, ?_⟩
  · intro hmn
    rw [he m (lt_of_le_of_lt hmn hn), he n hn]
    exact hmn
  · intro hmn
    rw [he m (lt_trans hmn hn), he n hn]
    exact hmn

/-- Witness for C8 at concrete inputs below the wrap. -/
theorem signalMonotoneBelowWrap_check :
    syncSignalAfter 3 = 3 ∧
      (2 ≤ 3 → syncSignalAfter 2 ≤ syncSignalAfter 3) ∧
      (2 < 3 → syncSignalAfter 2 < syncSignalAfter 3) :=
  signalMonotoneBelowWrap 2 3 (by norm_num)

lemma consumeN_true (n : Nat) : consumeN n true = List.replicate n false := by
  induction n with
  | zero => rfl
  | succ n ih => simp [consumeN, triggerConsume, ih, List.replicate_succ]

/-- C10: a newly constructed `trigger` / `AtomicTrigger` is unfired: every
consume before the first fire returns `false`; and after a fire from any
state, exactly one subsequent consume returns `true` — the first one,
which re-sets the flag, so all following consumes without an intervening
fire return `false`. -/
theorem triggerLatchBehavior : ∀ (n : Nat) (s : Bool),
    consumeN n triggerInit = List.replicate n false ∧
      consumeN (n + 1) (triggerFire s) = true :: List.replicate n false := by
  intro n s
  refine ⟨consumeN_true n, ?_⟩
  show consumeN (n + 1) false = _
  simp [consumeN, triggerConsume, consumeN_true]

lemma bbinv (s : BallSt) (h : BBReach s) : ballINV s := by
  induction h with
  | init0 => simp [ballINV]
  | init1 => simp [ballINV]
  | throw0 t h1 _ ih =>
    rcases ih with ⟨ht, hiff⟩ | ⟨ht, h0, h1'⟩ <;> simp_all [ballINV]
  | throw1 t h0 _ ih =>
    rcases ih with ⟨ht, hiff⟩ | ⟨ht, h0', h1'⟩ <;> simp_all [ballINV]
  | catch0 h1 _ ih =>
    rcases ih with ⟨ht, hiff⟩ | ⟨ht, h0', h1'⟩ <;> simp_all [ballINV]
  | catch1 h0 _ ih =>
    rcases ih with ⟨ht, hiff⟩ | ⟨ht, h0', h1'⟩ <;> simp_all [ballINV]

/-- C4 counterexample: from a ball constructed with `first_catcher = 0`, a
single successful `catch_ball<0>` stores `NO_PLAYER = -1` into
`thrown_to_`; the stored holder state of the `beach_ball` / `BeachBall` is
then neither `0` (held-by-A) nor `1` (held-by-B), so a third stored state
is reachable, contrary to the claim as stated. -/
theorem beachBallThirdStateReachable :
    BBReach ⟨-1, true, false⟩ ∧
      ¬((BallSt.mk (-1) true false).thrownTo = 0 ∨
        (BallSt.mk (-1) true false).thrownTo = 1) := by
  refine ⟨BBReach.catch0 false BBReach.init0, ?_⟩
  decide

/-- C4 amended: counting a player's `have_ball_` bookkeeping as holding,
every state reachable from construction by throw and catch operations has
exactly one logical holder, role `0` or role `1`: `thrown_to_` is
`NO_PLAYER` exactly when one player has caught the ball, both players
never hold it simultaneously, and no reachable state is held by neither
role. -/
theorem beachBallLogicalHolder : ∀ s : BallSt, BBReach s →
    (logicalHolder s = 0 ∨ logicalHolder s = 1) ∧
      ¬(s.have0 = true ∧ s.have1 = true) ∧
      (s.thrownTo = -1 ↔ (s.have0 = true ∨ s.have1 = true)) := by
  intro s h
  have hi := bbinv s h
  rcases hi with ⟨ht, hiff⟩ | ⟨ht, h0, h1⟩
  · cases hb0 : s.have0 <;> cases hb1 : s.have1 <;> simp_all [logicalHolder]
  · rcases ht with hq | hq <;> simp [logicalHolder, h0, h1, hq]

/-- Witness for C4 at a concrete reachable state (after `catch_ball<1>`
succeeds on a ball first thrown to player `1`). -/
theorem beachBallLogicalHolder_check :
    (logicalHolder ⟨-1, false, true⟩ = 0 ∨ logicalHolder ⟨-1, false, true⟩ = 1) ∧
      ¬((BallSt.mk (-1) false true).have0 = true ∧
        (BallSt.mk (-1) false true).have1 = true) ∧
      ((BallSt.mk (-1) false true).thrownTo = -1 ↔
        ((BallSt.mk (-1) false true).have0 = true ∨
          (BallSt.mk (-1) false true).have1 = true)) :=
  beachBallLogicalHolder ⟨-1, false, true⟩ (BBReach.catch1 false BBReach.init1)

lemma ssoUpdate_noAdvance (g : Nat) (s : SSOState) (h : ¬ s.slotValue < g) :
    ssoUpdate g s = { s with slotValue := g } := by
  unfold ssoUpdate
  simp [h]

lemma ssoTrace_cons (op : SSOOp) (t : List SSOOp) (sys : SSOSys) :
    ssoTrace (op :: t) sys = ssoTrace t (ssoStep op sys) := rfl

lemma ssoInv (t : List SSOOp) : ∀ sys : SSOSys, SSOOp.tick ∉ t →
    sys.sso.slotValue = sys.sig →
    (ssoTrace t sys).sso.slotValue = (ssoTrace t sys).sig ∧
      (ssoTrace t sys).sig = sys.sig ∧
      (ssoTrace t sys).sso.retrieved = sys.sso.retrieved := by
  induction t with
  | nil =>
    intro sys _ h
    exact ⟨h, rfl, rfl⟩
  | cons op t ih =>
    intro sys hnt h
    obtain ⟨s, g⟩ := sys
    have hstep : (ssoStep op ⟨s, g⟩).sso.slotValue = (ssoStep op ⟨s, g⟩).sig ∧
        (ssoStep op ⟨s, g⟩).sig = g ∧
        (ssoStep op ⟨s, g⟩).sso.retrieved = s.retrieved := by
      cases op with
      | tick => exact absurd (by simp) hnt
      | commit v => exact ⟨h, rfl, rfl⟩
      | getData =>
        show (ssoGetData g s).1.slotValue = g ∧ g = g ∧ (ssoGetData g s).1.retrieved = s.retrieved
        unfold ssoGetData
        rw [ssoUpdate_noAdvance g s (by simp at h ⊢; omega)]
        exact ⟨rfl, rfl, rfl⟩
    have hnt' : SSOOp.tick ∉ t := fun hq => hnt (List.mem_cons_of_mem _ hq)
    obtain ⟨h1, h2, h3⟩ := ih (ssoStep op ⟨s, g⟩) hnt' hstep.1
    rw [ssoTrace_cons]
    exact ⟨h1, h2.trans hstep.2.1, h3.trans hstep.2.2⟩

/-- C6: within one signal tick — for any sequence of `get_data()` calls
and writer commits with no intervening increment of the signal value —
every `get_data()` returns a reference to the same underlying record as
the first `get_data()` of that tick, even though commits set `new_data_`;
a mid-tick commit only becomes observable once the signal value has
increased past `slot_value_`. -/
theorem tickGatedStability : ∀ (sys : SSOSys) (t : List SSOOp), SSOOp.tick ∉ t →
    ∀ n : Nat,
      (ssoGetData (ssoTrace (t.take n) (ssoStep SSOOp.getData sys)).sig
        (ssoTrace (t.take n) (ssoStep SSOOp.getData sys)).sso).2 =
      (ssoGetData sys.sig sys.sso).2 := by
  intro sys t hnt n
  have hstart : (ssoStep SSOOp.getData sys).sso.slotValue = (ssoStep SSOOp.getData sys).sig ∧
      (ssoStep SSOOp.getData sys).sig = sys.sig ∧
      (ssoStep SSOOp.getData sys).sso.retrieved = (ssoGetData sys.sig sys.sso).2 := by
    obtain ⟨s, g⟩ := sys
    exact ⟨rfl, rfl, rfl⟩
  have htk : SSOOp.tick ∉ t.take n := fun hq => hnt (List.take_subset n t hq)
  obtain ⟨h1, h2, h3⟩ := ssoInv (t.take n) (ssoStep SSOOp.getData sys) htk hstart.1
  show (ssoUpdate (ssoTrace (t.take n) (ssoStep SSOOp.getData sys)).sig
      (ssoTrace (t.take n) (ssoStep SSOOp.getData sys)).sso).retrieved =
    (ssoGetData sys.sig sys.sso).2
  rw [ssoUpdate_noAdvance _ _ (by omega)]
  exact h3.trans hstart.2.2

/-- Witness for C6 at concrete inputs: the first `get_data` of the tick
picks up record `0`; a mid-tick commit and a second `get_data` still
return record `0`. -/
theorem tickGatedStability_check :
    (ssoGetData (ssoTrace ([SSOOp.commit 7, SSOOp.getData].take 2)
        (ssoStep SSOOp.getData ⟨⟨applyTrace [Op.commit 5] initObj, 0, none, true⟩, 1⟩)).sig
      (ssoTrace ([SSOOp.commit 7, SSOOp.getData].take 2)
        (ssoStep SSOOp.getData ⟨⟨applyTrace [Op.commit 5] initObj, 0, none, true⟩, 1⟩)).sso).2 =
    (ssoGetData (1 : Nat) ⟨applyTrace [Op.commit 5] initObj, 0, none, true⟩).2 :=
  tickGatedStability ⟨⟨applyTrace [Op.commit 5] initObj, 0, none, true⟩, 1⟩
    [SSOOp.commit 7, SSOOp.getData] (by decide) 2

/-- C7: if slot `idx` of the dual-slot cache holds no retrieved value but
the other slot does, `get_data(idx)` returns the value already retrieved
by the other slot, without updating any state (given that at least one
value has been committed). -/
theorem dualSlotFallback : ∀ (sig : Nat) (idx : Bool) (s : SSOPState) (j : Nat),
    (s.obj.lastWritten).isSome = true →
    pairSlot s idx = none → pairSlot s (!idx) = some j →
    pairGetData sig idx s = (s, derefImm s.obj (some j)) := by
  intro sig idx s j _ hnone hother
  unfold pairGetData
  rw [hnone, hother]
  simp

/-- Witness for C7 at a concrete state: slot `0` is empty, slot `1` holds
record `0` (value `5`); `get_data(0)` returns slot `1`'s value `5`. -/
theorem dualSlotFallback_check :
    pairGetData 3 false ⟨applyTrace [Op.commit 5] initObj, 1, none, some 0, false⟩ =
      (⟨applyTrace [Op.commit 5] initObj, 1, none, some 0, false⟩,
        derefImm (applyTrace [Op.commit 5] initObj) (some 0)) :=
  dualSlotFallback 3 false ⟨applyTrace [Op.commit 5] initObj, 1, none, some 0, false⟩ 0
    (by decide) rfl rfl


end StupidVerification
